import Mathlib

/-!
Verification of the native inference session manager
(`app/src/main/cpp/llm-hub-jni.cpp`).

The llama.cpp backend is an external collaborator; it is modelled as an
abstract capability structure `Env`, parameterized by the context-state
type, the model-handle type and the vocab-handle type.  The three global
handles `g_model`, `g_vocab`, `g_ctx` are modelled as a `Session` record.
The generation loop of `generateResponse` is embedded as a fuel-indexed
recursion `genLoop` instrumented with the accumulated text, the list of
accepted fragments, the list of fragments delivered to the streaming
sink, the number of decode calls, and the decode-failure flag.
-/

set_option maxHeartbeats 1000000

namespace LlmHub

/-- Token ids (`llama_token`) as natural numbers indexing the vocabulary. -/
abbrev Token := Nat

/-- Abstract backend capability surface (llama.cpp).  `σ` is the mutable
context state (KV cache), `μ` the model handle, `ν` the vocab handle.
`tokenizeRaw` models the first (size-probing) `llama_tokenize` call with a
null buffer, whose raw return value the source negates; `tokenizeFill`
models the second call filling a buffer of the given size (`none` models a
negative return).  `tokenToPiece` models `llama_token_to_piece`, returning
the return code `n` and the buffer contents (meaningful when `0 < n`).
`sinkOk` models whether the JNI class/method lookups for the streaming
callback succeed. -/
structure Env (σ μ ν : Type) where
  loadModel : String → Option μ
  getVocab : μ → ν
  initCtx : μ → Option σ
  tokenizeRaw : ν → String → Int
  tokenizeFill : ν → String → Nat → Option (List Token)
  decode : σ → List Token → Option σ
  logits : σ → List Int
  isEog : ν → Token → Bool
  tokenToPiece : ν → Token → Int × String
  sinkOk : Bool

/-- The three persistent native globals `g_model`, `g_vocab`, `g_ctx`. -/
structure Session (σ μ ν : Type) where
  gModel : Option μ
  gVocab : Option ν
  gCtx : Option σ
deriving DecidableEq

/-- The initial process state: all three globals are null. -/
def session0 {σ μ ν : Type} : Session σ μ ν := ⟨none, none, none⟩

/-- The hard-coded generation budget `n_predict = 64`. -/
def maxNewTokens : Nat := 64

/-- The textual stop marker checked by `strncmp(buf, "<end_of_turn>", 13)`. -/
def stopMarker : String := "<end_of_turn>"

/-- The Gemma-style dialogue template wrapped around the raw prompt. -/
def fullPrompt (p : String) : String :=
  "<start_of_turn>user\n" ++ p ++ "\n<end_of_turn>\n<start_of_turn>model\n"

/-- The early-stop test `strncmp(buf, "<end_of_turn>", 13) == 0`: the
marker is exactly 13 ASCII characters and contains no null byte, so the
comparison succeeds exactly when the marker is a prefix of the rendered
piece. -/
def hitsStopMarker (piece : String) : Bool :=
  stopMarker.data.isPrefixOf piece.data

/-- Index of the first maximal element of a logits vector.  Modelled from
the spec: SamplingPolicy is greedy arg-max over the vocabulary logits,
deterministic, keeping the first maximal index (the sampler itself lives
in the external backend). -/
def argmaxIdx (l : List Int) : Nat :=
  match l.max? with
  | some m => l.indexOf m
  | none => 0

/-- Greedy sampling: `llama_sampler_sample` applied to a sampler chain
holding the single greedy stage built at lines 105-108 of the source. -/
def llamaSamplerSample {σ μ ν : Type} (e : Env σ μ ν) (c : σ) : Token :=
  argmaxIdx (e.logits c)

/-- State of the generation loop: the context, `n_pos`, the pending
batch, the accumulated `result` string, the fragments delivered to the
streaming sink, the accepted fragments, the number of `llama_decode`
calls made, and whether a decode call failed. -/
structure GenState (σ : Type) where
  ctx : σ
  nPos : Nat
  batch : List Token
  result : String
  sunk : List String
  frags : List String
  steps : Nat
  failed : Bool
deriving DecidableEq

/-- The generation loop (source lines 122-169), fuel-indexed.  Each
iteration: check the guard `n_pos + batch.n_tokens < n_prompt + n_predict`;
decode (break with the failure flag if it fails); advance `n_pos`; sample
greedily; break on an end-of-generation token; render the token to a
piece; when the return code is positive, break before appending if the
piece starts with the stop marker, otherwise append it to the result and
deliver it to the sink; continue with the sampled token as the next
single-token batch. -/
def genLoop {σ μ ν : Type} (e : Env σ μ ν) (v : ν) (nPrompt nPredict : Nat) :
    Nat → GenState σ → GenState σ
  | 0, s => s
  | fuel + 1, s =>
    if s.nPos + s.batch.length < nPrompt + nPredict then
      match e.decode s.ctx s.batch with
      | none => { s with failed := true, steps := s.steps + 1 }
      | some c2 =>
        if e.isEog v (llamaSamplerSample e c2) = true then
          { s with ctx := c2, nPos := s.nPos + s.batch.length,
                   steps := s.steps + 1 }
        else if 0 < (e.tokenToPiece v (llamaSamplerSample e c2)).1 then
          if hitsStopMarker (e.tokenToPiece v (llamaSamplerSample e c2)).2 = true then
            { s with ctx := c2, nPos := s.nPos + s.batch.length,
                     steps := s.steps + 1 }
          else
            genLoop e v nPrompt nPredict fuel
              { ctx := c2, nPos := s.nPos + s.batch.length,
                batch := [llamaSamplerSample e c2],
                result := s.result ++ (e.tokenToPiece v (llamaSamplerSample e c2)).2,
                sunk := if e.sinkOk = true then
                    s.sunk ++ [(e.tokenToPiece v (llamaSamplerSample e c2)).2]
                  else s.sunk,
                frags := s.frags ++ [(e.tokenToPiece v (llamaSamplerSample e c2)).2],
                steps := s.steps + 1, failed := s.failed }
        else
          genLoop e v nPrompt nPredict fuel
            { ctx := c2, nPos := s.nPos + s.batch.length,
              batch := [llamaSamplerSample e c2],
              result := s.result, sunk := s.sunk, frags := s.frags,
              steps := s.steps + 1, failed := s.failed }
    else s

/-- Instrumented result of `generateResponse`: the returned text, the
updated globals, the sink deliveries, the accepted fragments, the number
of decode calls and the decode-failure flag. -/
structure GenResult (σ μ ν : Type) where
  text : String
  session : Session σ μ ν
  sunk : List String
  frags : List String
  decodeCalls : Nat
  decodeFailed : Bool
deriving DecidableEq

/-- A short-circuit return carrying a sentinel string, with the session
untouched and no loop activity. -/
def sentinelResult {σ μ ν : Type} (t : String) (s : Session σ μ ν) :
    GenResult σ μ ν :=
  ⟨t, s, [], [], 0, false⟩

/-- Embedding of `generateResponse` (source lines 72-181).  Null-handle
check, prompt templating, two-phase tokenization with the two sentinel
returns, then the generation loop started on the full prompt batch; the
final context is stored back into `g_ctx`. -/
def generateResponse {σ μ ν : Type} (e : Env σ μ ν) (s : Session σ μ ν)
    (p : String) : GenResult σ μ ν :=
  match s.gCtx, s.gVocab with
  | some c, some v =>
    if -(e.tokenizeRaw v (fullPrompt p)) ≤ 0 then
      sentinelResult "Tokenization failed" s
    else
      match e.tokenizeFill v (fullPrompt p) (-(e.tokenizeRaw v (fullPrompt p))).toNat with
      | none => sentinelResult "Tokenization failed" s
      | some promptTokens =>
        let out := genLoop e v (-(e.tokenizeRaw v (fullPrompt p))).toNat maxNewTokens
          ((-(e.tokenizeRaw v (fullPrompt p))).toNat + maxNewTokens)
          ⟨c, 0, promptTokens, "", [], [], 0, false⟩
        ⟨out.result, { s with gCtx := some out.ctx }, out.sunk, out.frags,
          out.steps, out.failed⟩
  | _, _ => sentinelResult "Model not initialized" s

/-- Embedding of `initLlama` (source lines 20-69).  On model-load failure
the null result is stored into `g_model` and `-1` returned, the other two
globals untouched; on context-creation failure the model is freed and all
three globals cleared, returning `-2`; on success all three globals are
set and `0` returned. -/
def initLlama {σ μ ν : Type} (e : Env σ μ ν) (s : Session σ μ ν)
    (path : String) : Int × Session σ μ ν :=
  match e.loadModel path with
  | none => (-1, { s with gModel := none })
  | some m =>
    match e.initCtx m with
    | none => (-2, ⟨none, none, none⟩)
    | some c => (0, ⟨some m, some (e.getVocab m), some c⟩)

/-- Teardown actions of `releaseLlama`, in the order they are executed. -/
inductive TeardownEvent where
  | freeCtx
  | freeModel
  | backendFree
deriving DecidableEq

/-- Embedding of `releaseLlama` (source lines 184-198): free the context
if present, then the model (also nulling the vocab) if present, then
unconditionally shut the backend down.  The event list records the
teardown order. -/
def releaseLlama {σ μ ν : Type} (s : Session σ μ ν) :
    Session σ μ ν × List TeardownEvent :=
  let r1 : Session σ μ ν × List TeardownEvent :=
    match s.gCtx with
    | some _ => ({ s with gCtx := none }, [TeardownEvent.freeCtx])
    | none => (s, [])
  let r2 : Session σ μ ν × List TeardownEvent :=
    match r1.1.gModel with
    | some _ => ({ r1.1 with gModel := none, gVocab := none },
        [TeardownEvent.freeModel])
    | none => (r1.1, [])
  (r2.1, r1.2 ++ r2.2 ++ [TeardownEvent.backendFree])

/-- One caller-facing operation of the JNI surface. -/
inductive Op where
  | opInit (path : String)
  | opGen (prompt : String)
  | opRel
deriving DecidableEq

/-- Run one operation, tracking whether any `initLlama` call has
returned `0` (a successful initialization). -/
def runOp {σ μ ν : Type} (e : Env σ μ ν) (sb : Session σ μ ν × Bool)
    (o : Op) : Session σ μ ν × Bool :=
  match o with
  | Op.opInit path =>
    let r := initLlama e sb.1 path
    (r.2, sb.2 || (r.1 == 0))
  | Op.opGen p => ((generateResponse e sb.1 p).session, sb.2)
  | Op.opRel => ((releaseLlama sb.1).1, sb.2)

/-- Run a sequence of operations from the initial process state. -/
def runOps {σ μ ν : Type} (e : Env σ μ ν) (ops : List Op) :
    Session σ μ ν × Bool :=
  ops.foldl (runOp e) (session0, false)

/-- The handle invariant of claim C10: a live context requires a live
model, and a live vocab is equivalent to a live model. -/
def HandleInv {σ μ ν : Type} (s : Session σ μ ν) : Prop :=
  (s.gCtx.isSome → s.gModel.isSome) ∧ (s.gVocab.isSome ↔ s.gModel.isSome)

/-- The loop run performed by `generateResponse` once the session and
tokenization checks have passed: prompt batch of tokens `ts`, prompt
length `nP`, budget `maxNewTokens`, fuel `nP + maxNewTokens`. -/
def genRun {σ μ ν : Type} (e : Env σ μ ν) (v : ν) (c : σ) (ts : List Token)
    (nP : Nat) : GenState σ :=
  genLoop e v nP maxNewTokens (nP + maxNewTokens) ⟨c, 0, ts, "", [], [], 0, false⟩

/-- Concrete backend used to exercise the theorems: loading, context
creation and tokenization succeed, the context state counts decode calls,
and the first sampled token is end-of-generation. -/
def envGood : Env Nat Unit Unit where
  loadModel := fun _ => some ()
  getVocab := fun _ => ()
  initCtx := fun _ => some 0
  tokenizeRaw := fun _ _ => -1
  tokenizeFill := fun _ _ n => some (List.replicate n 0)
  decode := fun c _ => some (c + 1)
  logits := fun _ => [1]
  isEog := fun _ _ => true
  tokenToPiece := fun _ _ => (1, "a")
  sinkOk := true

/-- A session whose three globals are all live. -/
def sessionReady : Session Nat Unit Unit := ⟨some (), some (), some 0⟩

/-- Backend whose decode operation always fails. -/
def envDecodeFail : Env Nat Unit Unit :=
  { envGood with decode := fun _ _ => none }

/-- Backend whose model load always fails. -/
def envNoLoad : Env Nat Unit Unit :=
  { envGood with loadModel := fun _ => none }

/-- Backend whose context creation always fails. -/
def envCtxFail : Env Nat Unit Unit :=
  { envGood with initCtx := fun _ => none }

/-- Backend whose size-probing tokenize call reports failure. -/
def envTokFail : Env Nat Unit Unit :=
  { envGood with tokenizeRaw := fun _ _ => 1 }

/-- Backend whose token-to-piece call reports a non-positive size for a
piece that would otherwise hit the stop marker. -/
def envSkipPiece : Env Nat Unit Unit :=
  { envGood with
    isEog := fun _ _ => false
    tokenToPiece := fun _ _ => (-1, "<end_of_turn>") }

/-- Backend whose rendered piece is exactly the stop marker. -/
def envStopPiece : Env Nat Unit Unit :=
  { envGood with
    isEog := fun _ _ => false
    tokenToPiece := fun _ _ => (13, "<end_of_turn>") }

/-- Backend whose first generated token renders to a piece that contains
the stop marker without beginning with it, followed by an
end-of-generation token. -/
def envMarkerInside : Env Nat Unit Unit :=
  { envGood with
    logits := fun c => if c ≤ 1 then [1] else [0, 1]
    isEog := fun _ t => t == 1
    tokenToPiece := fun _ _ => (14, "x<end_of_turn>") }

/-- Backend in which loading succeeds only for the path "m". -/
def envPickyLoad : Env Nat Unit Unit :=
  { envGood with loadModel := fun p => if p = "m" then some () else none }

section StepEquations

variable {σ μ ν : Type} (e : Env σ μ ν) (v : ν) (P N fuel : Nat) (s : GenState σ)

/-- Joining a list of strings with one more string appended. -/
theorem stringJoin_concat (l : List String) (x : String) :
    String.join (l ++ [x]) = String.join l ++ x := by
  simp [String.join, List.foldl_append]

/-- When the guard fails the loop body never runs: the state is returned
as is, for any fuel. -/
theorem genLoop_guard_false (h : ¬ (s.nPos + s.batch.length < P + N)) :
    genLoop e v P N fuel s = s := by
  cases fuel <;> simp [genLoop, h]

/-- Step equation: the decode call fails, so the loop breaks at once with
the failure flag set and nothing appended. -/
theorem genLoop_step_fail (hg : s.nPos + s.batch.length < P + N)
    (hdec : e.decode s.ctx s.batch = none) :
    genLoop e v P N (fuel + 1) s = { s with failed := true, steps := s.steps + 1 } := by
  simp only [genLoop]
  rw [if_pos hg, hdec]

/-- Step equation: the sampled token is end-of-generation, so the loop
breaks with nothing appended. -/
theorem genLoop_step_eog (c2 : σ) (hg : s.nPos + s.batch.length < P + N)
    (hdec : e.decode s.ctx s.batch = some c2)
    (he : e.isEog v (llamaSamplerSample e c2) = true) :
    genLoop e v P N (fuel + 1) s =
      { s with ctx := c2, nPos := s.nPos + s.batch.length, steps := s.steps + 1 } := by
  simp only [genLoop]
  rw [if_pos hg, hdec]
  simp [he]

/-- Step equation: the rendered piece begins with the textual stop marker,
so the loop breaks before appending it. -/
theorem genLoop_step_stop (c2 : σ) (hg : s.nPos + s.batch.length < P + N)
    (hdec : e.decode s.ctx s.batch = some c2)
    (he : e.isEog v (llamaSamplerSample e c2) = false)
    (hn : 0 < (e.tokenToPiece v (llamaSamplerSample e c2)).1)
    (hm : hitsStopMarker (e.tokenToPiece v (llamaSamplerSample e c2)).2 = true) :
    genLoop e v P N (fuel + 1) s =
      { s with ctx := c2, nPos := s.nPos + s.batch.length, steps := s.steps + 1 } := by
  simp only [genLoop]
  rw [if_pos hg, hdec]
  simp [he, hn, hm]

/-- Step equation: an ordinary accepted token; the piece is appended,
delivered to the sink when it is reachable, and the loop continues with
the single-token batch. -/
theorem genLoop_step_append (c2 : σ) (hg : s.nPos + s.batch.length < P + N)
    (hdec : e.decode s.ctx s.batch = some c2)
    (he : e.isEog v (llamaSamplerSample e c2) = false)
    (hn : 0 < (e.tokenToPiece v (llamaSamplerSample e c2)).1)
    (hm : hitsStopMarker (e.tokenToPiece v (llamaSamplerSample e c2)).2 = false) :
    genLoop e v P N (fuel + 1) s =
      genLoop e v P N fuel
        { ctx := c2, nPos := s.nPos + s.batch.length,
          batch := [llamaSamplerSample e c2],
          result := s.result ++ (e.tokenToPiece v (llamaSamplerSample e c2)).2,
          sunk := if e.sinkOk = true then
              s.sunk ++ [(e.tokenToPiece v (llamaSamplerSample e c2)).2]
            else s.sunk,
          frags := s.frags ++ [(e.tokenToPiece v (llamaSamplerSample e c2)).2],
          steps := s.steps + 1, failed := s.failed } := by
  simp only [genLoop]
  rw [if_pos hg, hdec]
  simp [he, hn, hm]

/-- Step equation: the piece could not be rendered (return code not
positive); the token text is silently dropped, the stop-marker test is
skipped, and the loop continues with the single-token batch. -/
theorem genLoop_step_skip (c2 : σ) (hg : s.nPos + s.batch.length < P + N)
    (hdec : e.decode s.ctx s.batch = some c2)
    (he : e.isEog v (llamaSamplerSample e c2) = false)
    (hn : ¬ 0 < (e.tokenToPiece v (llamaSamplerSample e c2)).1) :
    genLoop e v P N (fuel + 1) s =
      genLoop e v P N fuel
        { ctx := c2, nPos := s.nPos + s.batch.length,
          batch := [llamaSamplerSample e c2],
          result := s.result, sunk := s.sunk, frags := s.frags,
          steps := s.steps + 1, failed := s.failed } := by
  simp only [genLoop]
  rw [if_pos hg, hdec]
  simp [he, hn]

end StepEquations

/-- Combined loop invariant: the decode-call count and the number of
accepted fragments grow by at most the remaining budget
`P + N - (nPos + |batch|)`; the accumulated result stays the join of the
accepted fragments; sink deliveries stay exactly the accepted fragments
when the sink is reachable; and no accepted fragment begins with the stop
marker. -/
theorem genLoop_inv {σ μ ν : Type} (e : Env σ μ ν) (v : ν) (P N : Nat) :
    ∀ (fuel : Nat) (s : GenState σ),
      ((genLoop e v P N fuel s).steps ≤
        s.steps + (P + N - (s.nPos + s.batch.length))) ∧
      ((genLoop e v P N fuel s).frags.length ≤
        s.frags.length + (P + N - (s.nPos + s.batch.length))) ∧
      (s.result = String.join s.frags →
        (genLoop e v P N fuel s).result =
          String.join (genLoop e v P N fuel s).frags) ∧
      (e.sinkOk = true → s.sunk = s.frags →
        (genLoop e v P N fuel s).sunk = (genLoop e v P N fuel s).frags) ∧
      ((∀ f ∈ s.frags, hitsStopMarker f = false) →
        ∀ f ∈ (genLoop e v P N fuel s).frags, hitsStopMarker f = false) := by
  intro fuel
  induction fuel with
  | zero =>
    intro s
    exact ⟨Nat.le_add_right _ _, Nat.le_add_right _ _, fun h => h,
      fun _ h => h, fun h => h⟩
  | succ fuel ih =>
    intro s
    by_cases hg : s.nPos + s.batch.length < P + N
    · cases hdec : e.decode s.ctx s.batch with
      | none =>
        rw [genLoop_step_fail e v P N fuel s hg hdec]
        exact ⟨by dsimp only; omega, Nat.le_add_right _ _, fun h => h,
          fun _ h => h, fun h => h⟩
      | some c2 =>
        cases he : e.isEog v (llamaSamplerSample e c2) with
        | true =>
          rw [genLoop_step_eog e v P N fuel s c2 hg hdec he]
          exact ⟨by dsimp only; omega, Nat.le_add_right _ _, fun h => h,
            fun _ h => h, fun h => h⟩
        | false =>
          by_cases hn : 0 < (e.tokenToPiece v (llamaSamplerSample e c2)).1
          · cases hm : hitsStopMarker (e.tokenToPiece v (llamaSamplerSample e c2)).2 with
            | true =>
              rw [genLoop_step_stop e v P N fuel s c2 hg hdec he hn hm]
              exact ⟨by dsimp only; omega, Nat.le_add_right _ _, fun h => h,
                fun _ h => h, fun h => h⟩
            | false =>
              rw [genLoop_step_append e v P N fuel s c2 hg hdec he hn hm]
              obtain ⟨ih1, ih2, ih3, ih4, ih5⟩ := ih
                { ctx := c2, nPos := s.nPos + s.batch.length,
                  batch := [llamaSamplerSample e c2],
                  result := s.result ++ (e.tokenToPiece v (llamaSamplerSample e c2)).2,
                  sunk := if e.sinkOk = true then
                      s.sunk ++ [(e.tokenToPiece v (llamaSamplerSample e c2)).2]
                    else s.sunk,
                  frags := s.frags ++ [(e.tokenToPiece v (llamaSamplerSample e c2)).2],
                  steps := s.steps + 1, failed := s.failed }
              dsimp only at ih1 ih2
              refine ⟨le_trans ih1 (by simp; omega),
                le_trans ih2 (by simp; omega), ?_, ?_, ?_⟩
              · intro h
                exact ih3 (by dsimp only; rw [h, stringJoin_concat])
              · intro hs h
                refine ih4 hs ?_
                dsimp only
                rw [if_pos hs, h]
              · intro h
                refine ih5 ?_
                intro f hf
                dsimp only at hf
                rcases List.mem_append.1 hf with hf | hf
                · exact h f hf
                · rw [List.mem_singleton.1 hf]
                  exact hm
          · rw [genLoop_step_skip e v P N fuel s c2 hg hdec he hn]
            obtain ⟨ih1, ih2, ih3, ih4, ih5⟩ := ih
              { ctx := c2, nPos := s.nPos + s.batch.length,
                batch := [llamaSamplerSample e c2],
                result := s.result, sunk := s.sunk, frags := s.frags,
                steps := s.steps + 1, failed := s.failed }
            dsimp only at ih1 ih2
            exact ⟨le_trans ih1 (by simp; omega), le_trans ih2 (by simp; omega),
              fun h => ih3 h, fun hs h => ih4 hs h, fun h => ih5 h⟩
    · rw [genLoop_guard_false e v P N (fuel + 1) s hg]
      exact ⟨Nat.le_add_right _ _, Nat.le_add_right _ _, fun h => h,
        fun _ h => h, fun h => h⟩

/-- The loop is insensitive to the fuel once the fuel covers the
remaining budget: it terminates by its guard or a break, never by fuel
exhaustion. -/
theorem genLoop_fuel_eq {σ μ ν : Type} (e : Env σ μ ν) (v : ν) (P N : Nat) :
    ∀ (f1 f2 : Nat) (s : GenState σ),
      P + N - (s.nPos + s.batch.length) ≤ f1 →
      P + N - (s.nPos + s.batch.length) ≤ f2 →
      genLoop e v P N f1 s = genLoop e v P N f2 s := by
  intro f1
  induction f1 with
  | zero =>
    intro f2 s h1 h2
    have hg : ¬ (s.nPos + s.batch.length < P + N) := by omega
    rw [genLoop_guard_false e v P N 0 s hg, genLoop_guard_false e v P N f2 s hg]
  | succ f1 ih =>
    intro f2 s h1 h2
    by_cases hg : s.nPos + s.batch.length < P + N
    · obtain ⟨g2, rfl⟩ : ∃ g2, f2 = g2 + 1 := by
        cases f2 with
        | zero => exact absurd h2 (by omega)
        | succ g => exact ⟨g, rfl⟩
      cases hdec : e.decode s.ctx s.batch with
      | none =>
        rw [genLoop_step_fail e v P N f1 s hg hdec,
          genLoop_step_fail e v P N g2 s hg hdec]
      | some c2 =>
        cases he : e.isEog v (llamaSamplerSample e c2) with
        | true =>
          rw [genLoop_step_eog e v P N f1 s c2 hg hdec he,
            genLoop_step_eog e v P N g2 s c2 hg hdec he]
        | false =>
          by_cases hn : 0 < (e.tokenToPiece v (llamaSamplerSample e c2)).1
          · cases hm : hitsStopMarker (e.tokenToPiece v (llamaSamplerSample e c2)).2 with
            | true =>
              rw [genLoop_step_stop e v P N f1 s c2 hg hdec he hn hm,
                genLoop_step_stop e v P N g2 s c2 hg hdec he hn hm]
            | false =>
              rw [genLoop_step_append e v P N f1 s c2 hg hdec he hn hm,
                genLoop_step_append e v P N g2 s c2 hg hdec he hn hm]
              apply ih <;> (simp only [List.length_cons, List.length_nil]; omega)
          · rw [genLoop_step_skip e v P N f1 s c2 hg hdec he hn,
              genLoop_step_skip e v P N g2 s c2 hg hdec he hn]
            apply ih <;> (simp only [List.length_cons, List.length_nil]; omega)
    · rw [genLoop_guard_false e v P N (f1 + 1) s hg,
        genLoop_guard_false e v P N f2 s hg]

/-- Greedy selection picks a maximal logit: every logit value is bounded
by the value at the selected index. -/
theorem le_getD_argmaxIdx (l : List Int) (x : Int) (hx : x ∈ l) :
    x ≤ l.getD (argmaxIdx l) 0 := by
  unfold argmaxIdx
  cases hmax : l.max? with
  | none =>
    rw [List.max?_eq_none_iff] at hmax
    subst hmax
    exact absurd hx (List.not_mem_nil x)
  | some m =>
    have hmem : m ∈ l := List.max?_mem (fun a b => max_choice a b) hmax
    have hlt : l.indexOf m < l.length := List.indexOf_lt_length.2 hmem
    rw [List.getD_eq_getElem l 0 hlt]
    have hget := List.indexOf_get hlt
    haveI : Std.Antisymm (fun (x1 x2 : Int) => x1 ≤ x2) :=
      ⟨fun h1 h2 => le_antisymm h1 h2⟩
    rw [List.max?_eq_some_iff (fun a => le_refl a) (fun a b => max_choice a b)
      (fun a b c => max_le_iff)] at hmax
    calc x ≤ m := hmax.2 x hx
      _ = _ := hget.symm.trans (List.get_eq_getElem l _)

section SessionLemmas

variable {σ μ ν : Type} (e : Env σ μ ν) (p path : String)

/-- With a null context or vocab handle, `generateResponse` returns the
sentinel and leaves the session untouched. -/
theorem generateResponse_not_ready (s : Session σ μ ν)
    (h : s.gCtx = none ∨ s.gVocab = none) :
    generateResponse e s p = sentinelResult "Model not initialized" s := by
  obtain ⟨gm, gv, gc⟩ := s
  rcases h with h | h
  · simp only at h
    subst h
    cases gv <;> rfl
  · simp only at h
    subst h
    cases gc <;> rfl

/-- Unfolding of `generateResponse` on the ready path: both tokenize
calls succeed and the loop output determines the result. -/
theorem generateResponse_ready (gm : Option μ) (v : ν) (c : σ) (ts : List Token)
    (htok : 0 < -(e.tokenizeRaw v (fullPrompt p)))
    (hfill : e.tokenizeFill v (fullPrompt p)
      (-(e.tokenizeRaw v (fullPrompt p))).toNat = some ts) :
    generateResponse e ⟨gm, some v, some c⟩ p =
      ⟨(genRun e v c ts (-(e.tokenizeRaw v (fullPrompt p))).toNat).result,
        ⟨gm, some v, some (genRun e v c ts (-(e.tokenizeRaw v (fullPrompt p))).toNat).ctx⟩,
        (genRun e v c ts (-(e.tokenizeRaw v (fullPrompt p))).toNat).sunk,
        (genRun e v c ts (-(e.tokenizeRaw v (fullPrompt p))).toNat).frags,
        (genRun e v c ts (-(e.tokenizeRaw v (fullPrompt p))).toNat).steps,
        (genRun e v c ts (-(e.tokenizeRaw v (fullPrompt p))).toNat).failed⟩ := by
  simp only [generateResponse]
  rw [if_neg (by omega), hfill]
  rfl

/-- Unfolding of `generateResponse` when the size-probing tokenize call
fails or reports an empty encoding. -/
theorem generateResponse_tokRawFail (gm : Option μ) (v : ν) (c : σ)
    (htok : -(e.tokenizeRaw v (fullPrompt p)) ≤ 0) :
    generateResponse e ⟨gm, some v, some c⟩ p =
      sentinelResult "Tokenization failed" ⟨gm, some v, some c⟩ := by
  simp only [generateResponse]
  rw [if_pos htok]

/-- Unfolding of `generateResponse` when the buffer-filling tokenize call
fails. -/
theorem generateResponse_tokFillFail (gm : Option μ) (v : ν) (c : σ)
    (htok : 0 < -(e.tokenizeRaw v (fullPrompt p)))
    (hfill : e.tokenizeFill v (fullPrompt p)
      (-(e.tokenizeRaw v (fullPrompt p))).toNat = none) :
    generateResponse e ⟨gm, some v, some c⟩ p =
      sentinelResult "Tokenization failed" ⟨gm, some v, some c⟩ := by
  simp only [generateResponse]
  rw [if_neg (by omega), hfill]

/-- Unfolding of `initLlama` when the model load fails: `-1` and only
`g_model` written. -/
theorem initLlama_loadFail (s : Session σ μ ν) (h : e.loadModel path = none) :
    initLlama e s path = (-1, { s with gModel := none }) := by
  simp [initLlama, h]

/-- Unfolding of `initLlama` when context creation fails: `-2` and all
three globals cleared. -/
theorem initLlama_ctxFail (s : Session σ μ ν) (m : μ)
    (hm : e.loadModel path = some m) (hc : e.initCtx m = none) :
    initLlama e s path = (-2, ⟨none, none, none⟩) := by
  simp [initLlama, hm, hc]

/-- Unfolding of `initLlama` on success: `0` and all three globals set. -/
theorem initLlama_ok (s : Session σ μ ν) (m : μ) (c : σ)
    (hm : e.loadModel path = some m) (hc : e.initCtx m = some c) :
    initLlama e s path = (0, ⟨some m, some (e.getVocab m), some c⟩) := by
  simp [initLlama, hm, hc]

/-- Full characterization of `releaseLlama`: the context and model
handles are always cleared, the vocab handle only together with a live
model, and the teardown events appear in acquisition-reverse order. -/
theorem releaseLlama_spec (s : Session σ μ ν) :
    releaseLlama s =
      (⟨none, if s.gModel.isSome = true then none else s.gVocab, none⟩,
        (if s.gCtx.isSome = true then [TeardownEvent.freeCtx] else []) ++
        (if s.gModel.isSome = true then [TeardownEvent.freeModel] else []) ++
        [TeardownEvent.backendFree]) := by
  obtain ⟨gm, gv, gc⟩ := s
  cases gm <;> cases gc <;> simp [releaseLlama]

end SessionLemmas

section RunOpsLemmas

variable {σ μ ν : Type} (e : Env σ μ ν)

/-- Once a successful initialization has been observed, the success flag
stays set. -/
theorem foldl_runOp_bool_mono :
    ∀ (ops : List Op) (sb : Session σ μ ν × Bool), sb.2 = true →
      (List.foldl (runOp e) sb ops).2 = true := by
  intro ops
  induction ops with
  | nil => intro sb h; exact h
  | cons o ops ih =>
    intro sb h
    apply ih
    cases o with
    | opInit path => simp [runOp, h]
    | opGen p2 => exact h
    | opRel => exact h

/-- As long as no `initLlama` call has returned `0`, the context handle
stays null through any sequence of operations. -/
theorem foldl_runOp_gCtx_none :
    ∀ (ops : List Op) (sb : Session σ μ ν × Bool), sb.1.gCtx = none →
      (List.foldl (runOp e) sb ops).2 = false →
      (List.foldl (runOp e) sb ops).1.gCtx = none := by
  intro ops
  induction ops with
  | nil => intro sb h _; exact h
  | cons o ops ih =>
    intro sb h hfalse
    simp only [List.foldl_cons] at hfalse ⊢
    cases o with
    | opInit path =>
      cases hl : e.loadModel path with
      | none =>
        apply ih _ _ hfalse
        simp [runOp, initLlama_loadFail e path sb.1 hl, h]
      | some m =>
        cases hc : e.initCtx m with
        | none =>
          apply ih _ _ hfalse
          simp [runOp, initLlama_ctxFail e path sb.1 m hl hc]
        | some c =>
          exfalso
          have hbool : (runOp e sb (Op.opInit path)).2 = true := by
            simp [runOp, initLlama_ok e path sb.1 m c hl hc]
          have htrue := foldl_runOp_bool_mono e ops _ hbool
          rw [hfalse] at htrue
          exact Bool.false_ne_true htrue
    | opGen p2 =>
      apply ih _ _ hfalse
      show ((generateResponse e sb.1 p2).session, sb.2).1.gCtx = none
      rw [generateResponse_not_ready e p2 sb.1 (Or.inl h)]
      exact h
    | opRel =>
      apply ih _ _ hfalse
      show ((releaseLlama sb.1).1, sb.2).1.gCtx = none
      rw [releaseLlama_spec]

end RunOpsLemmas

section HandleInvLemmas

variable {σ μ ν : Type} (e : Env σ μ ν) (p path : String)

/-- A generation call preserves the handle invariant: it either leaves
the session untouched or refreshes a context that was already live. -/
theorem generateResponse_handleInv (s : Session σ μ ν) (h : HandleInv s) :
    HandleInv (generateResponse e s p).session := by
  obtain ⟨gm, gv, gc⟩ := s
  cases gc with
  | none =>
    rw [generateResponse_not_ready e p _ (Or.inl rfl)]
    exact h
  | some c =>
    cases gv with
    | none =>
      rw [generateResponse_not_ready e p _ (Or.inr rfl)]
      exact h
    | some v =>
      by_cases ht : -(e.tokenizeRaw v (fullPrompt p)) ≤ 0
      · rw [generateResponse_tokRawFail e p gm v c ht]
        exact h
      · cases hf : e.tokenizeFill v (fullPrompt p)
            (-(e.tokenizeRaw v (fullPrompt p))).toNat with
        | none =>
          rw [generateResponse_tokFillFail e p gm v c (by omega) hf]
          exact h
        | some ts =>
          rw [generateResponse_ready e p gm v c ts (by omega) hf]
          exact ⟨fun _ => h.1 rfl, h.2⟩

/-- A release preserves the handle invariant. -/
theorem releaseLlama_handleInv (s : Session σ μ ν) (h : HandleInv s) :
    HandleInv (releaseLlama s).1 := by
  rw [releaseLlama_spec]
  by_cases hm : s.gModel.isSome = true
  · rw [if_pos hm]
    exact ⟨fun hc => absurd hc (by simp), by simp⟩
  · rw [if_neg hm]
    refine ⟨fun hc => absurd hc (by simp), ?_⟩
    have hv : ¬ s.gVocab.isSome = true := fun hv => hm (h.2.1 hv)
    constructor
    · intro hv2
      exact absurd hv2 hv
    · intro hm2
      exact absurd hm2 (by simp)

/-- Initialization from a state with no live handles establishes the
handle invariant, whichever way it completes. -/
theorem initLlama_handleInv (s : Session σ μ ν) (_h1 : s.gModel = none)
    (h2 : s.gVocab = none) (h3 : s.gCtx = none) :
    HandleInv (initLlama e s path).2 := by
  cases hl : e.loadModel path with
  | none =>
    rw [initLlama_loadFail e path s hl]
    exact ⟨fun hc => absurd hc (by simp [h3]), by simp [h2]⟩
  | some m =>
    cases hc : e.initCtx m with
    | none =>
      rw [initLlama_ctxFail e path s m hl hc]
      exact ⟨fun hx => absurd hx (by simp), by simp⟩
    | some c =>
      rw [initLlama_ok e path s m c hl hc]
      exact ⟨fun _ => rfl, by simp⟩

end HandleInvLemmas

/-- C1: For every prompt of length P tokens and the configured limit
N = maxNewTokens (64 in this build), the generation loop of generate()
runs only while position + |pendingBatch| < P + N, terminates within
P + N decode steps (any fuel at or beyond that budget yields the same
outcome), and appends at most N accepted token fragments to the result. -/
theorem C1_loop_bounds {σ μ ν : Type} (e : Env σ μ ν) (gm : Option μ)
    (v : ν) (c : σ) (p : String) (ts : List Token)
    (htok : 0 < -(e.tokenizeRaw v (fullPrompt p)))
    (hfill : e.tokenizeFill v (fullPrompt p)
      (-(e.tokenizeRaw v (fullPrompt p))).toNat = some ts)
    (hlen : ts.length = (-(e.tokenizeRaw v (fullPrompt p))).toNat) :
    (generateResponse e ⟨gm, some v, some c⟩ p).decodeCalls ≤
        ts.length + maxNewTokens ∧
    (generateResponse e ⟨gm, some v, some c⟩ p).frags.length ≤ maxNewTokens ∧
    (∀ (fuel : Nat) (s0 : GenState σ),
      ¬ (s0.nPos + s0.batch.length < ts.length + maxNewTokens) →
      genLoop e v ts.length maxNewTokens fuel s0 = s0) ∧
    (∀ fuel : Nat, ts.length + maxNewTokens ≤ fuel →
      genLoop e v ts.length maxNewTokens fuel ⟨c, 0, ts, "", [], [], 0, false⟩ =
        genRun e v c ts ts.length) := by
  rw [generateResponse_ready e p gm v c ts htok hfill]
  have hP : (-(e.tokenizeRaw v (fullPrompt p))).toNat = ts.length := hlen.symm
  rw [hP]
  dsimp only
  simp only [genRun]
  obtain ⟨i1, i2, _, _, _⟩ := genLoop_inv e v ts.length maxNewTokens
    (ts.length + maxNewTokens) ⟨c, 0, ts, "", [], [], 0, false⟩
  dsimp only at i1 i2
  refine ⟨le_trans i1 (by omega),
    le_trans i2 (by simp only [List.length_nil]; omega),
    fun fuel s0 h => genLoop_guard_false e v ts.length maxNewTokens fuel s0 h,
    fun fuel hf => genLoop_fuel_eq e v ts.length maxNewTokens fuel
      (ts.length + maxNewTokens) ⟨c, 0, ts, "", [], [], 0, false⟩
      (by dsimp only; omega) (by dsimp only; omega)⟩

/-- Witness for C1 at a concrete backend: one prompt token, so the
decode-call count is bounded by 1 + maxNewTokens. -/
theorem C1_witness :
    (generateResponse envGood sessionReady "hi").decodeCalls ≤ 1 + maxNewTokens :=
  (C1_loop_bounds envGood (some ()) () 0 "hi" [0] (by decide) rfl rfl).1

/-- C2: If the backend decode operation fails at any loop iteration, the
loop stops at that iteration and returns exactly the text (and sink
deliveries) accumulated so far, appending nothing further; in particular
with a backend whose decode always fails, generate() returns the empty
string with the failure flag set, without crashing. -/
theorem C2_decode_failure :
    (∀ (σ μ ν : Type) (e : Env σ μ ν) (v : ν) (P N fuel : Nat) (s : GenState σ),
      s.nPos + s.batch.length < P + N →
      e.decode s.ctx s.batch = none →
      genLoop e v P N (fuel + 1) s =
        { s with failed := true, steps := s.steps + 1 }) ∧
    (∀ (σ μ ν : Type) (e : Env σ μ ν) (gm : Option μ) (v : ν) (c : σ)
      (p : String) (ts : List Token),
      0 < -(e.tokenizeRaw v (fullPrompt p)) →
      e.tokenizeFill v (fullPrompt p)
        (-(e.tokenizeRaw v (fullPrompt p))).toNat = some ts →
      ts.length = (-(e.tokenizeRaw v (fullPrompt p))).toNat →
      (∀ (c2 : σ) (b : List Token), e.decode c2 b = none) →
      (generateResponse e ⟨gm, some v, some c⟩ p).text = "" ∧
        (generateResponse e ⟨gm, some v, some c⟩ p).decodeFailed = true) := by
  constructor
  · intro σ μ ν e v P N fuel s hg hdec
    exact genLoop_step_fail e v P N fuel s hg hdec
  · intro σ μ ν e gm v c p ts htok hfill hlen hfail
    rw [generateResponse_ready e p gm v c ts htok hfill]
    dsimp only
    simp only [genRun]
    have hP : (-(e.tokenizeRaw v (fullPrompt p))).toNat = ts.length := hlen.symm
    rw [hP]
    have hM : 0 < maxNewTokens := by decide
    obtain ⟨k, hk⟩ : ∃ k, ts.length + maxNewTokens = k + 1 :=
      ⟨ts.length + maxNewTokens - 1, by omega⟩
    rw [hk]
    rw [genLoop_step_fail e v ts.length maxNewTokens k
      ⟨c, 0, ts, "", [], [], 0, false⟩ (by dsimp only; omega) (hfail c ts)]
    exact ⟨rfl, rfl⟩

/-- Witness for C2: a decode failure at a mid-loop state returns that
state's accumulated text unchanged, with the failure flag set. -/
theorem C2_witness :
    genLoop envDecodeFail () 1 64 1 ⟨0, 0, [0], "ab", ["ab"], ["ab"], 1, false⟩ =
      ⟨0, 0, [0], "ab", ["ab"], ["ab"], 2, true⟩ :=
  C2_decode_failure.1 Nat Unit Unit envDecodeFail () 1 64 0
    ⟨0, 0, [0], "ab", ["ab"], ["ab"], 1, false⟩ (by decide) rfl

/-- Counterexample to C3 as stated: with a backend whose first generated
token renders to "x<end_of_turn>", the prefix-anchored strncmp check does
not fire, the fragment is appended, and the returned text contains the
stop marker. -/
theorem C3_counterexample :
    stopMarker.data <:+: (generateResponse envMarkerInside sessionReady "q").text.data ∧
    (generateResponse envMarkerInside sessionReady "q").text = "x" ++ stopMarker := by
  constructor
  · decide
  · decide

/-- C3 (amended): if a sampled token's rendered fragment begins with the
textual stop marker (and was rendered with a positive size), generate()
stops before appending it, so the marker-bearing fragment is excluded;
consequently no accepted fragment ever begins with the stop marker.  (The
original claim's stronger conclusion, that the returned text never
contains the marker anywhere, fails: the check is anchored at the start
of each single fragment.) -/
theorem C3_amended :
    (∀ (σ μ ν : Type) (e : Env σ μ ν) (v : ν) (P N fuel : Nat)
      (s : GenState σ) (c2 : σ),
      s.nPos + s.batch.length < P + N →
      e.decode s.ctx s.batch = some c2 →
      e.isEog v (llamaSamplerSample e c2) = false →
      0 < (e.tokenToPiece v (llamaSamplerSample e c2)).1 →
      hitsStopMarker (e.tokenToPiece v (llamaSamplerSample e c2)).2 = true →
      genLoop e v P N (fuel + 1) s =
        { s with ctx := c2, nPos := s.nPos + s.batch.length,
                 steps := s.steps + 1 }) ∧
    (∀ (σ μ ν : Type) (e : Env σ μ ν) (s : Session σ μ ν) (p : String),
      ∀ f ∈ (generateResponse e s p).frags, hitsStopMarker f = false) := by
  constructor
  · intro σ μ ν e v P N fuel s c2 hg hdec he hn hm
    exact genLoop_step_stop e v P N fuel s c2 hg hdec he hn hm
  · intro σ μ ν e s p f hf
    obtain ⟨gm, gv, gc⟩ := s
    cases gc with
    | none =>
      rw [generateResponse_not_ready e p _ (Or.inl rfl)] at hf
      exact absurd hf (List.not_mem_nil f)
    | some c =>
      cases gv with
      | none =>
        rw [generateResponse_not_ready e p _ (Or.inr rfl)] at hf
        exact absurd hf (List.not_mem_nil f)
      | some v =>
        by_cases ht : -(e.tokenizeRaw v (fullPrompt p)) ≤ 0
        · rw [generateResponse_tokRawFail e p gm v c ht] at hf
          exact absurd hf (List.not_mem_nil f)
        · cases hfk : e.tokenizeFill v (fullPrompt p)
              (-(e.tokenizeRaw v (fullPrompt p))).toNat with
          | none =>
            rw [generateResponse_tokFillFail e p gm v c (by omega) hfk] at hf
            exact absurd hf (List.not_mem_nil f)
          | some ts =>
            rw [generateResponse_ready e p gm v c ts (by omega) hfk] at hf
            dsimp only at hf
            simp only [genRun] at hf
            exact (genLoop_inv e v (-(e.tokenizeRaw v (fullPrompt p))).toNat
              maxNewTokens ((-(e.tokenizeRaw v (fullPrompt p))).toNat + maxNewTokens)
              ⟨c, 0, ts, "", [], [], 0, false⟩).2.2.2.2
              (fun g hg => absurd hg (List.not_mem_nil g)) f hf

/-- Witness for the amended C3: a fragment that is exactly the stop
marker stops the loop with nothing appended. -/
theorem C3_witness :
    genLoop envStopPiece () 1 64 1 ⟨0, 0, [0], "", [], [], 0, false⟩ =
      ⟨1, 1, [0], "", [], [], 1, false⟩ :=
  C3_amended.1 Nat Unit Unit envStopPiece () 1 64 0
    ⟨0, 0, [0], "", [], [], 0, false⟩ 1 (by decide) rfl rfl (by decide) rfl

/-- C4: For every generation that completes without a decode failure
(and with the sink lookups succeeding), the fragments delivered to the
streaming sink are exactly the accepted fragments, in generation order,
and their concatenation equals the text returned by generate(). -/
theorem C4_streaming {σ μ ν : Type} (e : Env σ μ ν) (gm : Option μ)
    (v : ν) (c : σ) (p : String) (ts : List Token)
    (htok : 0 < -(e.tokenizeRaw v (fullPrompt p)))
    (hfill : e.tokenizeFill v (fullPrompt p)
      (-(e.tokenizeRaw v (fullPrompt p))).toNat = some ts)
    (hsink : e.sinkOk = true)
    (_hnf : (generateResponse e ⟨gm, some v, some c⟩ p).decodeFailed = false) :
    (generateResponse e ⟨gm, some v, some c⟩ p).sunk =
      (generateResponse e ⟨gm, some v, some c⟩ p).frags ∧
    (generateResponse e ⟨gm, some v, some c⟩ p).text =
      String.join (generateResponse e ⟨gm, some v, some c⟩ p).sunk := by
  rw [generateResponse_ready e p gm v c ts htok hfill]
  dsimp only
  simp only [genRun]
  obtain ⟨_, _, i3, i4, _⟩ := genLoop_inv e v
    (-(e.tokenizeRaw v (fullPrompt p))).toNat maxNewTokens
    ((-(e.tokenizeRaw v (fullPrompt p))).toNat + maxNewTokens)
    ⟨c, 0, ts, "", [], [], 0, false⟩
  have hsunk := i4 hsink rfl
  have hres := i3 rfl
  exact ⟨hsunk, by rw [hres, hsunk]⟩

/-- Witness for C4 at a concrete backend run. -/
theorem C4_witness :
    (generateResponse envGood sessionReady "hi").text =
      String.join (generateResponse envGood sessionReady "hi").sunk :=
  (C4_streaming envGood (some ()) () 0 "hi" [0] (by decide) rfl rfl rfl).2

/-- C5: generate() invoked after any sequence of operations containing no
successful initialize() returns the verbatim sentinel "Model not
initialized" with the session unchanged; and generate() on a ready
session whose prompt cannot be encoded to a non-empty token sequence
returns the verbatim sentinel "Tokenization failed" with the session
unchanged.  Both short-circuit: no decode call is made. -/
theorem C5_sentinels :
    (∀ (σ μ ν : Type) (e : Env σ μ ν) (ops : List Op) (p : String),
      (runOps e ops).2 = false →
      generateResponse e (runOps e ops).1 p =
        sentinelResult "Model not initialized" (runOps e ops).1) ∧
    (∀ (σ μ ν : Type) (e : Env σ μ ν) (s : Session σ μ ν) (c : σ) (v : ν)
      (p : String),
      s.gCtx = some c → s.gVocab = some v →
      (-(e.tokenizeRaw v (fullPrompt p)) ≤ 0 ∨
        e.tokenizeFill v (fullPrompt p)
          (-(e.tokenizeRaw v (fullPrompt p))).toNat = none) →
      generateResponse e s p = sentinelResult "Tokenization failed" s) := by
  constructor
  · intro σ μ ν e ops p hfalse
    have hctx : (runOps e ops).1.gCtx = none :=
      foldl_runOp_gCtx_none e ops (session0, false) rfl hfalse
    exact generateResponse_not_ready e p _ (Or.inl hctx)
  · intro σ μ ν e s c v p hc hv hbad
    obtain ⟨gm, gv, gc⟩ := s
    simp only at hc hv
    subst hc
    subst hv
    by_cases ht : -(e.tokenizeRaw v (fullPrompt p)) ≤ 0
    · exact generateResponse_tokRawFail e p gm v c ht
    · rcases hbad with hbad | hbad
      · exact absurd hbad ht
      · exact generateResponse_tokFillFail e p gm v c (by omega) hbad

/-- Witness for C5: a failed initialization followed by generate()
returns the first sentinel; an un-encodable prompt returns the second. -/
theorem C5_witness :
    generateResponse envNoLoad (runOps envNoLoad [Op.opInit "x"]).1 "hi" =
      sentinelResult "Model not initialized" (runOps envNoLoad [Op.opInit "x"]).1 ∧
    generateResponse envTokFail sessionReady "hi" =
      sentinelResult "Tokenization failed" sessionReady :=
  ⟨C5_sentinels.1 Nat Unit Unit envNoLoad [Op.opInit "x"] "hi" rfl,
   C5_sentinels.2 Nat Unit Unit envTokFail sessionReady 0 () "hi" rfl rfl
     (Or.inl (by decide))⟩

/-- C6: release() is idempotent from every session state, a double
release is a no-op on the handles (only the backend shutdown runs again),
releasing the initial state is a no-op, teardown events occur in the
order Context, Model, backend, and a later initialize() from the released
state succeeds whenever the backend loads. -/
theorem C6_release {σ μ ν : Type} (s : Session σ μ ν) :
    (releaseLlama (releaseLlama s).1).1 = (releaseLlama s).1 ∧
    (releaseLlama (releaseLlama s).1).2 = [TeardownEvent.backendFree] ∧
    (releaseLlama (session0 : Session σ μ ν)).1 = session0 ∧
    List.Sublist (releaseLlama s).2
      [TeardownEvent.freeCtx, TeardownEvent.freeModel, TeardownEvent.backendFree] ∧
    (∀ (e : Env σ μ ν) (path : String) (m : μ) (c : σ),
      e.loadModel path = some m → e.initCtx m = some c →
      initLlama e (releaseLlama s).1 path =
        (0, ⟨some m, some (e.getVocab m), some c⟩)) := by
  refine ⟨?_, ?_, ?_, ?_, ?_⟩
  · rw [releaseLlama_spec s, releaseLlama_spec]
    simp
  · rw [releaseLlama_spec s, releaseLlama_spec]
    simp
  · rw [releaseLlama_spec]
    simp [session0]
  · rw [releaseLlama_spec s]
    by_cases hc : s.gCtx.isSome = true <;>
      by_cases hm : s.gModel.isSome = true <;>
        simp [hc, hm]
  · intro e path m c hm hc
    exact initLlama_ok e path _ m c hm hc

/-- Witness for C6: re-initialization after release succeeds at a
concrete backend. -/
theorem C6_witness :
    initLlama envGood (releaseLlama sessionReady).1 "x" =
      (0, ⟨some (), some (), some 0⟩) :=
  (C6_release sessionReady).2.2.2.2 envGood "x" () 0 rfl rfl

/-- C7: initialize() distinguishes its two failure modes: model-load
failure returns -1 leaving only g_model written, context-creation
failure returns -2 with the loaded model freed and all three globals
cleared; -1 and -2 are distinct, and the cleared session is releasable
(release is a no-op on it) rather than ready. -/
theorem C7_init_failure_modes {σ μ ν : Type} (e : Env σ μ ν)
    (s : Session σ μ ν) (path : String) :
    (e.loadModel path = none →
      initLlama e s path = (-1, { s with gModel := none })) ∧
    (∀ m : μ, e.loadModel path = some m → e.initCtx m = none →
      initLlama e s path = (-2, (⟨none, none, none⟩ : Session σ μ ν)) ∧
      (releaseLlama (⟨none, none, none⟩ : Session σ μ ν)).1 = ⟨none, none, none⟩) ∧
    ((-1 : Int) ≠ -2) := by
  refine ⟨?_, ?_, by decide⟩
  · intro h
    exact initLlama_loadFail e path s h
  · intro m hm hc
    refine ⟨initLlama_ctxFail e path s m hm hc, ?_⟩
    rw [releaseLlama_spec]
    simp

/-- Witness for C7: both failure modes observed at concrete backends. -/
theorem C7_witness :
    initLlama envNoLoad session0 "x" = (-1, session0) ∧
    initLlama envCtxFail session0 "x" = (-2, session0) :=
  ⟨(C7_init_failure_modes envNoLoad session0 "x").1 rfl,
   ((C7_init_failure_modes envCtxFail session0 "x").2.1 () rfl rfl).1⟩

/-- C8: generate() is deterministic: its output is a function of the
backend, session state and prompt alone (two calls with identical model
and context state and identical prompt produce byte-identical text), and
the sampling stage is greedy arg-max: every logit value is bounded by
the logit at the sampled index.  No randomness enters the pipeline. -/
theorem C8_determinism :
    (∀ (σ μ ν : Type) (e1 e2 : Env σ μ ν) (s1 s2 : Session σ μ ν)
      (p1 p2 : String), e1 = e2 → s1 = s2 → p1 = p2 →
      (generateResponse e1 s1 p1).text = (generateResponse e2 s2 p2).text) ∧
    (∀ (σ μ ν : Type) (e : Env σ μ ν) (c : σ) (x : Int),
      x ∈ e.logits c → x ≤ (e.logits c).getD (llamaSamplerSample e c) 0) := by
  constructor
  · intro σ μ ν e1 e2 s1 s2 p1 p2 he hs hp
    subst he
    subst hs
    subst hp
    rfl
  · intro σ μ ν e c x hx
    exact le_getD_argmaxIdx (e.logits c) x hx

/-- Witness for C8 at a concrete backend and logit vector. -/
theorem C8_witness :
    (generateResponse envGood sessionReady "hi").text =
      (generateResponse envGood sessionReady "hi").text ∧
    (1 : Int) ≤ (envGood.logits 0).getD (llamaSamplerSample envGood 0) 0 :=
  ⟨C8_determinism.1 Nat Unit Unit envGood envGood sessionReady sessionReady
     "hi" "hi" rfl rfl rfl,
   C8_determinism.2 Nat Unit Unit envGood 0 1 (by decide)⟩

/-- C9: when the token-to-piece call reports a non-positive size, the
token's text is omitted from both the result and the sink, the
stop-marker check is skipped, and the loop still continues with that
token as the next single-token batch. -/
theorem C9_piece_skip :
    ∀ (σ μ ν : Type) (e : Env σ μ ν) (v : ν) (P N fuel : Nat)
      (s : GenState σ) (c2 : σ),
      s.nPos + s.batch.length < P + N →
      e.decode s.ctx s.batch = some c2 →
      e.isEog v (llamaSamplerSample e c2) = false →
      (e.tokenToPiece v (llamaSamplerSample e c2)).1 ≤ 0 →
      genLoop e v P N (fuel + 1) s =
        genLoop e v P N fuel
          { ctx := c2, nPos := s.nPos + s.batch.length,
            batch := [llamaSamplerSample e c2],
            result := s.result, sunk := s.sunk, frags := s.frags,
            steps := s.steps + 1, failed := s.failed } := by
  intro σ μ ν e v P N fuel s c2 hg hdec he hn
  exact genLoop_step_skip e v P N fuel s c2 hg hdec he (by omega)

/-- Witness for C9: a piece equal to the stop marker but reported with a
negative size is skipped and the loop continues. -/
theorem C9_witness :
    genLoop envSkipPiece () 1 64 1 ⟨0, 0, [0], "r", ["r"], ["r"], 0, false⟩ =
      genLoop envSkipPiece () 1 64 0 ⟨1, 1, [0], "r", ["r"], ["r"], 1, false⟩ :=
  C9_piece_skip Nat Unit Unit envSkipPiece () 1 64 0
    ⟨0, 0, [0], "r", ["r"], ["r"], 0, false⟩ 1 (by decide) rfl rfl (by decide)

/-- Counterexample to C10 as stated: calling initLlama on a live session
with a path whose load fails nulls g_model but leaves the stale g_ctx and
g_vocab live, so the handle invariant is violated after an initLlama
call. -/
theorem C10_counterexample :
    (initLlama envPickyLoad (initLlama envPickyLoad session0 "m").2 "bad").2.gModel
        = none ∧
    (initLlama envPickyLoad (initLlama envPickyLoad session0 "m").2 "bad").2.gCtx
        = some 0 ∧
    ¬ HandleInv (initLlama envPickyLoad (initLlama envPickyLoad session0 "m").2 "bad").2 := by
  refine ⟨rfl, rfl, ?_⟩
  intro h
  exact absurd (h.1 rfl) (by decide)

/-- C10 (amended): the handle invariant (context live only with a live
model, vocab live exactly when the model is) is preserved by
generateResponse and releaseLlama from any state satisfying it, and is
established by initLlama from any state with no live handles — i.e. the
invariant holds along every lifecycle in which initLlama is invoked only
from uninitialized or released states.  (As stated over arbitrary call
sequences the claim fails: re-initializing a live session through a
failing load strands the old context and vocab, see the
counterexample.) -/
theorem C10_amended :
    (∀ (σ μ ν : Type) (e : Env σ μ ν) (p : String) (s : Session σ μ ν),
      HandleInv s → HandleInv (generateResponse e s p).session) ∧
    (∀ (σ μ ν : Type) (s : Session σ μ ν),
      HandleInv s → HandleInv (releaseLlama s).1) ∧
    (∀ (σ μ ν : Type) (e : Env σ μ ν) (path : String) (s : Session σ μ ν),
      s.gModel = none → s.gVocab = none → s.gCtx = none →
      HandleInv (initLlama e s path).2) := by
  refine ⟨?_, ?_, ?_⟩
  · intro σ μ ν e p s h
    exact generateResponse_handleInv e p s h
  · intro σ μ ν s h
    exact releaseLlama_handleInv s h
  · intro σ μ ν e path s h1 h2 h3
    exact initLlama_handleInv e path s h1 h2 h3

/-- Witness for the amended C10: a fresh initialization establishes the
invariant. -/
theorem C10_witness :
    HandleInv (initLlama envGood session0 "x").2 :=
  C10_amended.2.2 Nat Unit Unit envGood "x" session0 rfl rfl rfl

end LlmHub
